import Mathlib

/-!
Verification of the mayan_calendar repository's calendar engine.

The Rust sources use the language-default truncating integer division and
remainder (`/` and `%` on `i32`), which correspond to `Int.tdiv` and
`Int.tmod` here.  Floor-style modulo `((x % m) + m) % m` therefore appears
as `(x.tmod m + m).tmod m`, which we relate to `Int.emod` below.
-/

namespace MayanSpec

/-! ## src/src/main.rs -/

namespace MainRs

/-- `gregorian_to_jdn` from src/src/main.rs (proleptic Gregorian → JDN,
Rust truncating division). -/
def gregorian_to_jdn (year month day : Int) : Int :=
  let a := (14 - month).tdiv 12
  let y := year + 4800 - a
  let m := month + 12 * a - 3
  day + (153 * m + 2).tdiv 5 + 365 * y + y.tdiv 4 - y.tdiv 100 + y.tdiv 400 - 32045

/-- `long_count` from src/src/main.rs: successive truncating division of the
day offset by 144000, 7200, 360, 20. -/
def long_count (days : Int) : Int × Int × Int × Int × Int :=
  let baktun := days.tdiv 144000
  let rem1 := days.tmod 144000
  let katun := rem1.tdiv 7200
  let rem2 := rem1.tmod 7200
  let tun := rem2.tdiv 360
  let rem3 := rem2.tmod 360
  let uinal := rem3.tdiv 20
  let kin := rem3.tmod 20
  (baktun, katun, tun, uinal, kin)

/-- `venus_phase` from src/src/main.rs.  Note the Rust `%` (truncating
remainder) on a possibly negative `jdn`. -/
def venus_phase (jdn : Int) : String :=
  let phase := jdn.tmod 584
  if phase < 50 then "🌟 Morning Star (Heliacal Rise)"
  else if phase < 215 then "☀️ Superior Conjunction (Invisible)"
  else if phase < 265 then "⭐ Evening Star (Heliacal Set)"
  else "🌑 Inferior Conjunction (Between Earth & Sun)"

/-- `next_eclipse` from src/src/main.rs, again with truncating `%`. -/
def next_eclipse (jdn : Int) : String :=
  let days_since_last_eclipse := jdn.tmod 6585
  if days_since_last_eclipse < 15 then "🌑 Lunar Eclipse Soon!"
  else if days_since_last_eclipse < 30 then "🌞 Solar Eclipse Soon!"
  else "🌘 No Eclipse Imminent"

/-- `year_bearer` from src/src/main.rs.  The index
`(((jdn + 348) % 260) % 4) as usize` uses truncating `%`, so it can be
negative; Rust's `as usize` then wraps modulo `2^64` and the array access
panics.  The panic is modelled by `List.get?` returning `none`. -/
def year_bearer (jdn : Int) : Option String :=
  let idx := ((jdn + 348).tmod 260).tmod 4
  ["Ik'", "Manik'", "Eb'", "K’an"].get? (idx.emod (2 ^ 64)).toNat

/-- The historical-events table of `historical_event` in src/src/main.rs. -/
def historical_events_table : List (Int × Int × Int × String) :=
  [(-3113, 8, 11, "🌎 The Maya creation date (0.0.0.0.0)"),
   (292, 1, 1, "📜 Earliest Long Count Date Found"),
   (378, 1, 16, "⚔️ Teotihuacan Influence Over Tikal Begins"),
   (426, 1, 1, "🏛️ Dynasty of Copán Founded"),
   (562, 1, 1, "🛑 Tikal Defeated by Calakmul"),
   (682, 6, 3, "👑 King Jasaw Chan K’awiil I Crowned in Tikal"),
   (751, 1, 1, "🏛️ Uxmal Emerges as a Major Power"),
   (869, 12, 1, "🏛️ Tikal Abandoned"),
   (987, 1, 1, "🏰 Toltec-Maya Rule in Chichen Itzá Begins"),
   (1200, 1, 1, "🔺 Decline of Chichen Itzá"),
   (1511, 8, 1, "⚔️ Spanish Make First Contact with the Maya"),
   (1697, 3, 13, "🏹 Spanish Conquer the Last Maya City, Tayasal")]

/-- `historical_event` from src/src/main.rs: linear scan comparing `jdn`
against the JDN of each table entry. -/
def historical_event (jdn : Int) : Option String :=
  (historical_events_table.find?
    (fun e => gregorian_to_jdn e.1 e.2.1 e.2.2.1 == jdn)).map
    (fun e => e.2.2.2)

end MainRs

/-! ## src/src/mayan_calendar_en.rs (Tzolkin / Haab cyclic dates) -/

namespace EnRs

/-- `TzolkinDate` struct from src/src/mayan_calendar_en.rs. -/
structure TzolkinDate where
  number : Int
  yucatec_name : String
  kiche_name : String
deriving Repr, DecidableEq

/-- The `yucatec_names` array of `tzolkin_date`. -/
def yucatec_names : List String :=
  ["Imix", "Ik'", "Ak'b'al", "K'an", "Chikchan",
   "Kimi", "Manik'", "Lamat", "Muluk", "Ok",
   "Chuwen", "Eb'", "B'en", "Ix", "Men",
   "Kib'", "Kab'an", "Etz'nab'", "Kawak", "Ajaw"]

/-- The `kiche_names` array of `tzolkin_date`. -/
def kiche_names : List String :=
  ["Imox", "Iq'", "Aq'ab'al", "K'at", "Kan",
   "Kame", "Kej", "Q'anil", "Tojil", "Tz'i'",
   "B'atz'", "E", "Aj", "Ix", "Tz'ikin",
   "Ajmaq", "No'j", "Tijax", "Kawoq", "Ajpu"]

/-- `tzolkin_date` from src/src/mayan_calendar_en.rs:
`number = (((days + 3) % 13 + 13) % 13) + 1` and name index
`(((days + 19) % 20 + 20) % 20) as usize` (the index is provably
non-negative, so `as usize` is `Int.toNat`). -/
def tzolkin_date (days : Int) : TzolkinDate :=
  let number := ((days + 3).tmod 13 + 13).tmod 13 + 1
  let index := (((days + 19).tmod 20 + 20).tmod 20).toNat
  { number := number
    yucatec_name := yucatec_names.getD index ""
    kiche_name := kiche_names.getD index "" }

/-- `HaabDate` struct from src/src/mayan_calendar_en.rs. -/
structure HaabDate where
  day : Int
  yucatec_month : String
  kiche_month : String
deriving Repr, DecidableEq

/-- The `yucatec_months` array of `haab_date`. -/
def yucatec_months : List String :=
  ["Pop", "Wo'", "Sip", "Sotz'", "Sek", "Xul", "Yaxkin", "Mol",
   "Ch'en", "Yax", "Zac", "Ceh", "Mac", "Kankin", "Muan", "Pax",
   "Kayab", "Kumk'u", "Wayeb'"]

/-- The `kiche_months` array of `haab_date`. -/
def kiche_months : List String :=
  ["Pop", "Wo'", "Sip", "Zotz'", "Tzek", "Xul", "Yaxkin", "Mol",
   "Chen", "Yax", "Zac", "Keh", "Mak", "Kank'in", "Muwan", "Pax",
   "Kayab", "Kumk'u", "Wayeb'"]

/-- The local `haab_day` of `haab_date`:
`((days + 348) % 365 + 365) % 365`. -/
def haab_day_num (days : Int) : Int :=
  ((days + 348).tmod 365 + 365).tmod 365

/-- The local `month_index` of `haab_date`: `haab_day / 20`. -/
def haab_month_index (days : Int) : Int :=
  (haab_day_num days).tdiv 20

/-- `haab_date` from src/src/mayan_calendar_en.rs. -/
def haab_date (days : Int) : HaabDate :=
  { day := (haab_day_num days).tmod 20
    yucatec_month := yucatec_months.getD (haab_month_index days).toNat ""
    kiche_month := kiche_months.getD (haab_month_index days).toNat "" }

end EnRs

/-! ## Astronomical cycle functions

The optimized iteration (src/src/chrono_maya_optim/chrono_maya_optim_v.0.1.9.rs)
imports these from its local modules `astronomical` and `date_utils`, whose
files are not present under src/.  They are modelled here from the spec's
§4.1 contracts, which mandate floor-style modulo throughout; the label
strings and correlation constants are the ones used by the same-named
functions in src/src/main.rs. -/

namespace Astro

/-- Modelled from the spec: `venusPhase(jdn)` — `phase = floorMod(jdn, 584)`
bucketed by thresholds (50, 215, 265); the file astronomical.rs is missing
from src/. -/
def venus_phase (jdn : Int) : String :=
  let phase := jdn.emod 584
  if phase < 50 then "🌟 Morning Star (Heliacal Rise)"
  else if phase < 215 then "☀️ Superior Conjunction (Invisible)"
  else if phase < 265 then "⭐ Evening Star (Heliacal Set)"
  else "🌑 Inferior Conjunction (Between Earth & Sun)"

/-- Modelled from the spec: `nextEclipse(jdn)` — `floorMod(jdn, 6585)`
bucketed by thresholds (15, 30); the file astronomical.rs is missing from
src/. -/
def next_eclipse (jdn : Int) : String :=
  let d := jdn.emod 6585
  if d < 15 then "🌑 Lunar Eclipse Soon!"
  else if d < 30 then "🌞 Solar Eclipse Soon!"
  else "🌘 No Eclipse Imminent"

/-- Modelled from the spec: `yearBearer(jdn)` — one of 4 fixed Tzolkin day
names selected by `floorMod(jdn + c4, 260) mod 4` (c4 = 348 as in
src/src/main.rs); the file astronomical.rs is missing from src/. -/
def year_bearer (jdn : Int) : String :=
  let idx := ((jdn + 348).emod 260).emod 4
  ["Ik'", "Manik'", "Eb'", "K’an"].getD idx.toNat ""

/-- Modelled from the spec: `moonPhase(jdn)` —
`age = floorMod(jdn, 29.530588) / 29.530588` bucketed into
New/FirstQuarter/Full/LastQuarter by thresholds (0.1, 0.25, 0.5, 0.75);
the file astronomical.rs is missing from src/.  Computed in exact rational
arithmetic. -/
def moon_phase (jdn : Int) : String :=
  let syn : ℚ := 29530588 / 1000000
  let age := (((jdn : ℚ) - syn * ⌊(jdn : ℚ) / syn⌋) / syn)
  if age < 1 / 10 then "🌑 New Moon"
  else if age < 1 / 4 then "🌓 First Quarter"
  else if age < 1 / 2 then "🌕 Full Moon"
  else if age < 3 / 4 then "🌗 Last Quarter"
  else "🌑 New Moon"

/-- Modelled from the spec: `nextSolsticeOrEquinox(year, month, day)` scans
4 fixed calendar dates in chronological order and returns the first one on
or after the given date with the day distance.  The file astronomical.rs is
missing from src/; the optimized iteration only ever calls it at the fixed
date (2000, 1, 1) (see the hard-coded `current_date` in
`calculate_single_date`), for which the result is the spring equinox of
2000-03-20, 79 days after 2000-01-01. -/
def next_solstice_2000 : String × Int := ("🌸 Spring Equinox", 79)

end Astro

/-! ## src/src/chrono_maya_optim/chrono_maya_optim_v.0.1.9.rs -/

namespace Optim

/-- `LongCount` struct from chrono_maya_optim_v.0.1.9.rs. -/
structure LongCount where
  baktun : Int
  katun : Int
  tun : Int
  uinal : Int
  kin : Int
deriving Repr, DecidableEq

/-- `LongCount::from_days`: successive truncating division by
144000, 7200, 360, 20. -/
def LongCount.from_days (days : Int) : LongCount :=
  let baktun := days.tdiv 144000
  let rem1 := days.tmod 144000
  let katun := rem1.tdiv 7200
  let rem2 := rem1.tmod 7200
  let tun := rem2.tdiv 360
  let rem3 := rem2.tmod 360
  let uinal := rem3.tdiv 20
  let kin := rem3.tmod 20
  { baktun := baktun, katun := katun, tun := tun, uinal := uinal, kin := kin }

/-- `LongCount::to_days`: recomposition
`baktun*144000 + katun*7200 + tun*360 + uinal*20 + kin`. -/
def LongCount.to_days (lc : LongCount) : Int :=
  lc.baktun * 144000 + lc.katun * 7200 + lc.tun * 360 + lc.uinal * 20 + lc.kin

/-- `CalendarData` struct from chrono_maya_optim_v.0.1.9.rs.  `TzolkinDate`
and `HaabDate` come from the missing `date_utils` module; the same-named
structs of src/src/mayan_calendar_en.rs stand in for them.  `NaiveDate` is
modelled as a (year, month, day) triple. -/
structure CalendarData where
  long_count : LongCount
  tzolkin : EnRs.TzolkinDate
  haab : EnRs.HaabDate
  moon_phase : String
  venus_phase : String
  year_bearer : String
  next_solstice : String × Int
  eclipse_status : String
  historical_event : Option String
  gregorian_date : Int × Int × Int
  julian_day_number : Int
  days_since_creation : Int
deriving Repr, DecidableEq

/-- The pure computation performed by `calculate_single_date` on a cache
miss: `CalendarData::new_from_components` (which fixes `gregorian_date` to
2000-01-01 and `julian_day_number` to 0) followed by the astronomical and
historical fields.  `tzolkin_date`/`haab_date` come from the missing
`date_utils` module (stand-in: src/src/mayan_calendar_en.rs); the
astronomical functions come from the missing `astronomical` module
(spec-modelled, namespace `Astro`); `historical_event` is the same-named
function of src/src/main.rs. -/
def computeSnapshot (days : Int) : CalendarData :=
  { long_count := LongCount.from_days days
    tzolkin := EnRs.tzolkin_date days
    haab := EnRs.haab_date days
    moon_phase := Astro.moon_phase days
    venus_phase := Astro.venus_phase days
    year_bearer := Astro.year_bearer days
    next_solstice := Astro.next_solstice_2000
    eclipse_status := Astro.next_eclipse days
    historical_event := MainRs.historical_event days
    gregorian_date := (2000, 1, 1)
    julian_day_number := 0
    days_since_creation := days }

/-- `Metrics` from chrono_maya_optim_v.0.1.9.rs (the atomic counters used
by the calculator; durations are abstracted to a cumulative count). -/
structure Metrics where
  calculation_time : Nat
  cache_hits : Nat
  cache_misses : Nat
deriving Repr, DecidableEq

/-- `Metrics::record_cache_hit`. -/
def Metrics.record_cache_hit (m : Metrics) : Metrics :=
  { m with cache_hits := m.cache_hits + 1 }

/-- `Metrics::record_cache_miss`. -/
def Metrics.record_cache_miss (m : Metrics) : Metrics :=
  { m with cache_misses := m.cache_misses + 1 }

/-- The `lru::LruCache<i32, V>` used by `CalendarCache`, with entries kept
most-recently-used first. -/
structure LruCache (β : Type) where
  entries : List (Int × β)
  cap : Nat

/-- `LruCache::new(capacity)` (empty cache; `NonZeroUsize` enforces a
positive capacity at the call site). -/
def LruCache.new (β : Type) (cap : Nat) : LruCache β :=
  { entries := [], cap := cap }

/-- `LruCache::get`: on a hit the entry is marked most-recently-used; a miss
has no side effect. -/
def LruCache.get {β : Type} (c : LruCache β) (k : Int) :
    Option β × LruCache β :=
  match c.entries.find? (fun p => p.1 == k) with
  | some p => (some p.2, { c with entries := p :: c.entries.filter (fun q => q.1 != k) })
  | none => (none, c)

/-- `LruCache::put`: overwrite-and-promote an existing key; otherwise evict
the least-recently-used entry when at capacity, then insert the new entry
as most-recently-used. -/
def LruCache.put {β : Type} (c : LruCache β) (k : Int) (v : β) : LruCache β :=
  if (c.entries.find? (fun p => p.1 == k)).isSome then
    { c with entries := (k, v) :: c.entries.filter (fun q => q.1 != k) }
  else if c.cap ≤ c.entries.length then
    { c with entries := (k, v) :: c.entries.dropLast }
  else
    { c with entries := (k, v) :: c.entries }

/-- `CalendarCache` wraps `LruCache<i32, CalendarData>`. -/
abbrev CalendarCache := LruCache CalendarData

/-- The state threaded through `ParallelCalendarCalculator`: the shared
calendar cache and the shared metrics counters. -/
structure CalcState where
  cache : CalendarCache
  metrics : Metrics

/-- `ParallelCalendarCalculator::calculate_single_date`: consult the cache
(recording a hit and returning the cached snapshot), else record a miss,
compute the snapshot, insert it into the cache and return it. -/
def calculate_single_date (s : CalcState) (days : Int) :
    CalendarData × CalcState :=
  match s.cache.get days with
  | (some data, c') =>
      (data, { cache := c', metrics := s.metrics.record_cache_hit })
  | (none, c') =>
      (computeSnapshot days,
       { cache := c'.put days (computeSnapshot days),
         metrics := s.metrics.record_cache_miss })

/-- The per-offset loop of `calculate_date_range`, gathering results in
input order. -/
def range_go (start_days : Int) (offs : List Int) (acc : List CalendarData)
    (s : CalcState) : List CalendarData × CalcState :=
  match offs with
  | [] => (acc, s)
  | o :: rest =>
      let r := calculate_single_date s (start_days + o)
      range_go start_days rest (acc ++ [r.1]) r.2

/-- `ParallelCalendarCalculator::calculate_date_range`: computes
`calculate_single_date(start_days + offset)` for `offset in 0..count` and
collects the results back into input order (rayon's ordered `collect`). -/
def calculate_date_range (s : CalcState) (start_days count : Int) :
    List CalendarData × CalcState :=
  range_go start_days ((List.range count.toNat).map Int.ofNat) [] s

/-- A calendar cache is well-formed when every cached snapshot is the one
computed for its key — the invariant every reachable cache state satisfies,
whatever interleaving of get/put operations produced it. -/
def WFCache (c : CalendarCache) : Prop :=
  ∀ p ∈ c.entries, p.2 = computeSnapshot p.1

/-- Well-formedness of a calculator state. -/
def WFState (s : CalcState) : Prop := WFCache s.cache

/-! ### GlyphRenderer of chrono_maya_optim_v.0.1.9.rs -/

/-- `GlyphError` from chrono_maya_optim_v.0.1.9.rs (io errors carried as
message strings). -/
inductive GlyphError where
  | FileError : String → GlyphError
  | MmapError : String → GlyphError
  | ImageLoadError : String → GlyphError
  | InvalidDimensions : Nat → Nat → GlyphError
deriving Repr, DecidableEq

/-- A decoded RGBA image (`img.to_rgba8()`): dimensions plus raw bytes. -/
structure Image where
  width : Nat
  height : Nat
  pixels : List Nat
deriving Repr, DecidableEq

/-- The collaborators behind glyph loading: `load_glyph_mmap` (file open +
mmap, yielding raw bytes) and `image::load_from_memory` + `to_rgba8`
(decoding). -/
structure AssetProvider where
  read_bytes : String → Except GlyphError (List Nat)
  decode : List Nat → Except GlyphError Image

/-- A texture handle produced by `ctx.load_texture(name, image, options)`:
the name it was registered under together with the uploaded image. -/
abbrev TextureHandle := String × Image

/-- `HashMap::insert` on an association list (overwrite semantics). -/
def insertAssoc {γ : Type} (m : List (String × γ)) (k : String) (v : γ) :
    List (String × γ) :=
  (k, v) :: m.filter (fun p => p.1 != k)

/-- `HashMap::get` on an association list. -/
def lookupAssoc {γ : Type} (m : List (String × γ)) (k : String) : Option γ :=
  (m.find? (fun p => p.1 == k)).map (fun p => p.2)

/-- `TextureCache` from chrono_maya_optim_v.0.1.9.rs. -/
structure TextureCache where
  tzolkin_textures : List (String × TextureHandle)
  haab_textures : List (String × TextureHandle)
deriving Repr, DecidableEq

/-- The glyph tables supplied by the `Config` collaborator
(name → asset path, for both categories). -/
structure Config019 where
  tzolkin_glyphs : List (String × String)
  haab_glyphs : List (String × String)

/-- The path list built at the start of `preload_glyphs`. -/
def preload_paths (cfg : Config019) : List String :=
  cfg.tzolkin_glyphs.map (fun p => p.2) ++ cfg.haab_glyphs.map (fun p => p.2)

/-- `str::contains` on character lists (used for `path.contains("tzolkin")`). -/
def substr_mem (pat : List Char) : List Char → Bool
  | [] => pat.isPrefixOf []
  | c :: rest => pat.isPrefixOf (c :: rest) || substr_mem pat rest

/-- The per-path body of the `try_for_each` closure in `preload_glyphs`:
mmap-load the bytes, decode, check the image is exactly 128×128 (else
`InvalidDimensions`), upload the texture and insert it into the cache
(`path.contains("tzolkin")` picks the map). -/
def process_glyph (prov : AssetProvider) (cache : TextureCache)
    (path : String) : Except GlyphError TextureCache :=
  match prov.read_bytes path with
  | .error e => .error e
  | .ok data =>
    match prov.decode data with
    | .error e => .error e
    | .ok img =>
      if img.width ≠ 128 ∨ img.height ≠ 128 then
        .error (GlyphError.InvalidDimensions img.width img.height)
      else
        let texture : TextureHandle := (path, img)
        if substr_mem "tzolkin".toList path.toList then
          .ok { cache with tzolkin_textures := insertAssoc cache.tzolkin_textures path texture }
        else
          .ok { cache with haab_textures := insertAssoc cache.haab_textures path texture }

/-- `try_for_each` over the path list: stops at the first error (the error
is propagated by `?` and the paths after it are never attempted); cache
mutations of earlier successful items persist. -/
def preload_go (prov : AssetProvider) :
    List String → TextureCache → Except GlyphError Unit × TextureCache
  | [], c => (.ok (), c)
  | p :: ps, c =>
    match process_glyph prov c p with
    | .error e => (.error e, c)
    | .ok c' => preload_go prov ps c'

/-- `GlyphRenderer::preload_glyphs` from chrono_maya_optim_v.0.1.9.rs. -/
def preload_glyphs (prov : AssetProvider) (cfg : Config019)
    (cache : TextureCache) : Except GlyphError Unit × TextureCache :=
  preload_go prov (preload_paths cfg) cache

end Optim

/-! ## src/src/chrono_maya_optim/chrono_maya_optim_v.0.4.0.rs -/

namespace Optim040

/-- `image::open` as used by v0.4.0's `get_texture`: path → decoded image,
io/decode failures carried as a message string. -/
structure Provider where
  open_image : String → Except String Optim.Image

/-- The glyph path tables of v0.4.0's `Config`
(`HashMap<String, String>` per category). -/
structure Config where
  tzolkin_glyphs : List (String × String)
  haab_glyphs : List (String × String)

/-- `GlyphType` from chrono_maya_optim_v.0.4.0.rs. -/
inductive GlyphType where
  | Tzolkin
  | Haab
deriving Repr, DecidableEq

/-- `GlyphRenderer::get_texture` from chrono_maya_optim_v.0.4.0.rs: resolve
the configured path for the name, return the cached handle on a hit; on a
miss, `image::open` the path (returning `None` on failure), upload it with
`ctx.load_texture(name, ...)`, cache the handle under the path and return
it.  (The decoded image's dimensions are never inspected.) -/
def get_texture (prov : Provider) (cfg : Config) (cache : Optim.TextureCache)
    (glyph_type : GlyphType) (name : String) :
    Option Optim.TextureHandle × Optim.TextureCache :=
  let path? := match glyph_type with
    | .Tzolkin => Optim.lookupAssoc cfg.tzolkin_glyphs name
    | .Haab => Optim.lookupAssoc cfg.haab_glyphs name
  match path? with
  | none => (none, cache)
  | some path =>
    let cached := match glyph_type with
      | .Tzolkin => Optim.lookupAssoc cache.tzolkin_textures path
      | .Haab => Optim.lookupAssoc cache.haab_textures path
    match cached with
    | some t => (some t, cache)
    | none =>
      match prov.open_image path with
      | .error _ => (none, cache)
      | .ok img =>
        let texture : Optim.TextureHandle := (name, img)
        match glyph_type with
        | .Tzolkin =>
            (some texture,
             { cache with tzolkin_textures := Optim.insertAssoc cache.tzolkin_textures path texture })
        | .Haab =>
            (some texture,
             { cache with haab_textures := Optim.insertAssoc cache.haab_textures path texture })

end Optim040

/-! ## Concrete fixtures used to evaluate the glyph loaders -/

/-- An asset provider whose file "a.png" is missing while every other path
yields a byte payload decoding to a 128×128 image. -/
def c8_provider : Optim.AssetProvider :=
  { read_bytes := fun path =>
      if path = "a.png" then Except.error (Optim.GlyphError.FileError "missing")
      else Except.ok [0]
    decode := fun _ => Except.ok ⟨128, 128, []⟩ }

/-- A two-glyph configuration whose first glyph is the missing "a.png". -/
def c8_config : Optim.Config019 :=
  ⟨[("Imix", "a.png"), ("Ik", "b.png")], []⟩

/-- A provider always yielding bytes that decode to a 64×64 image
(for the v0.1.9 preload path). -/
def c9_provider019 : Optim.AssetProvider :=
  ⟨fun _ => Except.ok [0], fun _ => Except.ok ⟨64, 64, []⟩⟩

/-- A v0.4.0 provider whose images open as 64×64. -/
def c9_provider040 : Optim040.Provider :=
  ⟨fun _ => Except.ok ⟨64, 64, []⟩⟩

/-- A one-glyph v0.4.0 configuration. -/
def c9_config040 : Optim040.Config :=
  ⟨[("Imix", "imix.png")], []⟩

/-! ## Helper lemmas -/

/-- The truncating remainder is odd in its first argument. -/
theorem neg_tmod' (a b : Int) : (-a).tmod b = -(a.tmod b) := by
  rw [Int.tmod_def, Int.tmod_def, Int.neg_tdiv]
  ring

/-- For a positive modulus the truncating remainder is strictly above `-b`. -/
theorem tmod_gt_neg (a : Int) {b : Int} (hb : 0 < b) : -b < a.tmod b := by
  rcases le_or_lt 0 a with ha | ha
  · have h := Int.tmod_nonneg b ha
    omega
  · have h1 : a.tmod b = -((-a).tmod b) := by
      have := neg_tmod' a b
      omega
    have h2 : (-a).tmod b < b := Int.tmod_lt_of_pos (-a) hb
    omega

/-- Rust's `((x % m) + m) % m` idiom computes the floor-style (Euclidean)
remainder `x.emod m` for positive `m`. -/
theorem double_tmod_eq_emod (a : Int) {m : Int} (hm : 0 < m) :
    (a.tmod m + m).tmod m = a % m := by
  have hlow : -m < a.tmod m := tmod_gt_neg a hm
  have hnn : 0 ≤ a.tmod m + m := by omega
  rw [Int.tmod_eq_emod hnn (le_of_lt hm)]
  have hdef : a.tmod m = a - m * a.tdiv m := Int.tmod_def a m
  have : a.tmod m + m = a + m * (1 - a.tdiv m) := by rw [hdef]; ring
  rw [this, Int.add_mul_emod_self_left]

/-- `tzolkin_date` in floor-modulo normal form. -/
theorem tzolkin_canon (d : Int) :
    EnRs.tzolkin_date d =
      { number := (d + 3) % 13 + 1
        yucatec_name := EnRs.yucatec_names.getD ((d + 19) % 20).toNat ""
        kiche_name := EnRs.kiche_names.getD ((d + 19) % 20).toNat "" } := by
  simp only [EnRs.tzolkin_date]
  rw [double_tmod_eq_emod (d + 3) (by norm_num), double_tmod_eq_emod (d + 19) (by norm_num)]

/-- The Haab day-of-year in floor-modulo normal form. -/
theorem haab_day_canon (d : Int) : EnRs.haab_day_num d = (d + 348) % 365 := by
  simp only [EnRs.haab_day_num]
  rw [double_tmod_eq_emod (d + 348) (by norm_num)]

/-! ## Claims -/

/-- C1: Long Count round-trip — for every day offset `d`, including
negative `d`, decomposing by successive division (`LongCount::from_days`)
and recomposing (`LongCount::to_days`) yields `d` again. -/
theorem c1_long_count_round_trip (d : Int) :
    (Optim.LongCount.from_days d).to_days = d := by
  simp only [Optim.LongCount.from_days, Optim.LongCount.to_days]
  have h1 := Int.tdiv_add_tmod d 144000
  have h2 := Int.tdiv_add_tmod (d.tmod 144000) 7200
  have h3 := Int.tdiv_add_tmod ((d.tmod 144000).tmod 7200) 360
  have h4 := Int.tdiv_add_tmod (((d.tmod 144000).tmod 7200).tmod 360) 20
  linarith

/-- C2 (code bug): the cycle functions of src/src/main.rs use Rust's
truncating `%`, not floor-style modulo.  At `jdn = -1`, `venus_phase` and
`next_eclipse` return a different label from the floorMod-determined one
(the spec-modelled `Astro` versions), and at `jdn = -349` `year_bearer`
panics on an out-of-bounds index instead of returning one of its 4 fixed
names. -/
theorem c2_truncating_modulo_bug :
    MainRs.venus_phase (-1) = "🌟 Morning Star (Heliacal Rise)" ∧
    Astro.venus_phase (-1) = "🌑 Inferior Conjunction (Between Earth & Sun)" ∧
    MainRs.next_eclipse (-1) = "🌑 Lunar Eclipse Soon!" ∧
    Astro.next_eclipse (-1) = "🌘 No Eclipse Imminent" ∧
    MainRs.year_bearer (-349) = none :=
  ⟨rfl, rfl, rfl, rfl, rfl⟩

/-- C3 (counterexample): at day offset 0 the code's Long Count is
`0.0.0.0.0`, not `13.0.0.0.0` as the claim states. -/
theorem c3_counterexample :
    MainRs.long_count (MainRs.gregorian_to_jdn (-3113) 8 11 - 584283) ≠
      (13, 0, 0, 0, 0) := by
  decide

/-- C3 (amended): `gregorian_to_jdn(-3113, 8, 11) = 584283`, so day offset 0
corresponds to JDN 584283, and the Long Count produced for day offset 0 is
`{0,0,0,0,0}`. -/
theorem c3_correlation_scenario :
    MainRs.gregorian_to_jdn (-3113) 8 11 = 584283 ∧
    MainRs.long_count (MainRs.gregorian_to_jdn (-3113) 8 11 - 584283) =
      (0, 0, 0, 0, 0) := by
  decide

/-- C7: boundary invariants of the cyclic dates — for every day offset `d`,
including negative `d`, `tzolkin_date(d).number ∈ [1,13]`,
`haab_date(d).day ∈ [0,19]` and the Haab month index lies in `[0,18]`. -/
theorem c7_cyclic_boundary_invariants (d : Int) :
    (1 ≤ (EnRs.tzolkin_date d).number ∧ (EnRs.tzolkin_date d).number ≤ 13) ∧
    (0 ≤ (EnRs.haab_date d).day ∧ (EnRs.haab_date d).day ≤ 19) ∧
    (0 ≤ EnRs.haab_month_index d ∧ EnRs.haab_month_index d ≤ 18) := by
  have hnn : 0 ≤ (d + 348) % 365 := Int.emod_nonneg _ (by norm_num)
  have hnum : (EnRs.tzolkin_date d).number = (d + 3) % 13 + 1 := by
    rw [tzolkin_canon]
  have hday : (EnRs.haab_date d).day = (d + 348) % 365 % 20 := by
    simp only [EnRs.haab_date]
    rw [haab_day_canon, Int.tmod_eq_emod hnn (by norm_num)]
  have hmon : EnRs.haab_month_index d = (d + 348) % 365 / 20 := by
    simp only [EnRs.haab_month_index]
    rw [haab_day_canon, Int.tdiv_eq_ediv hnn (by norm_num)]
  refine ⟨⟨?_, ?_⟩, ⟨?_, ?_⟩, ⟨?_, ?_⟩⟩
  · rw [hnum]; omega
  · rw [hnum]; omega
  · rw [hday]; omega
  · rw [hday]; omega
  · rw [hmon]; omega
  · rw [hmon]; omega

/-- A hit in a well-formed cache returns the snapshot computed for the
key. -/
theorem get_hit_val (c : Optim.CalendarCache) (k : Int) (v : Optim.CalendarData)
    (h : Optim.WFCache c) (hv : (c.get k).1 = some v) :
    v = Optim.computeSnapshot k := by
  unfold Optim.LruCache.get at hv
  cases hfind : c.entries.find? (fun p => p.1 == k) with
  | none => rw [hfind] at hv; simp at hv
  | some p =>
    rw [hfind] at hv
    simp only at hv
    obtain rfl : p.2 = v := by simpa using hv
    have hp := List.mem_of_find?_eq_some hfind
    have hpk : p.1 = k := by
      have := List.find?_some hfind
      simpa using this
    rw [h p hp, hpk]

/-- `LruCache::get` preserves cache well-formedness. -/
theorem get_wf (c : Optim.CalendarCache) (k : Int) (h : Optim.WFCache c) :
    Optim.WFCache (c.get k).2 := by
  unfold Optim.LruCache.get
  cases hfind : c.entries.find? (fun p => p.1 == k) with
  | none => simpa using h
  | some p =>
    simp only
    intro q hq
    rcases List.mem_cons.mp hq with rfl | hq'
    · exact h q (List.mem_of_find?_eq_some hfind)
    · exact h q (List.mem_of_mem_filter hq')

/-- `LruCache::put` with the computed snapshot preserves cache
well-formedness. -/
theorem put_wf (c : Optim.CalendarCache) (k : Int) (h : Optim.WFCache c) :
    Optim.WFCache (c.put k (Optim.computeSnapshot k)) := by
  unfold Optim.LruCache.put
  split_ifs <;> intro q hq <;> simp only at hq <;>
    rcases List.mem_cons.mp hq with rfl | hq'
  · rfl
  · exact h q (List.mem_of_mem_filter hq')
  · rfl
  · exact h q (List.dropLast_subset _ hq')
  · rfl
  · exact h q hq'

/-- On a well-formed state, `calculate_single_date` returns the snapshot
computed for its day offset — whatever the cache contents. -/
theorem single_date_val (s : Optim.CalcState) (d : Int) (h : Optim.WFState s) :
    (Optim.calculate_single_date s d).1 = Optim.computeSnapshot d := by
  unfold Optim.calculate_single_date
  split
  · next data c' heq =>
      exact get_hit_val s.cache d data h (by rw [heq])
  · rfl

/-- `calculate_single_date` preserves state well-formedness. -/
theorem single_date_wf (s : Optim.CalcState) (d : Int) (h : Optim.WFState s) :
    Optim.WFState (Optim.calculate_single_date s d).2 := by
  unfold Optim.calculate_single_date
  split
  · next data c' heq =>
      have := get_wf s.cache d h
      rw [heq] at this
      exact this
  · next c' heq =>
      have := get_wf s.cache d h
      rw [heq] at this
      exact put_wf c' d this

/-- The range loop produces exactly the per-offset computed snapshots, in
input order. -/
theorem range_go_spec (start : Int) (offs : List Int) :
    ∀ (acc : List Optim.CalendarData) (s : Optim.CalcState), Optim.WFState s →
      (Optim.range_go start offs acc s).1 =
        acc ++ offs.map (fun o => Optim.computeSnapshot (start + o)) := by
  induction offs with
  | nil => intro acc s _; simp [Optim.range_go]
  | cons o rest ih =>
      intro acc s hs
      unfold Optim.range_go
      rw [ih _ _ (single_date_wf s (start + o) hs)]
      rw [single_date_val s (start + o) hs]
      simp

/-- C4: order preservation of the range calculation — for every start
offset and count, and every well-formed calculator state, element `i` of
`calculate_date_range(start, count)` equals the result of
`calculate_single_date(start + i)` run from any well-formed state
(so the gathered sequence is element-wise the sequential per-date
computation, regardless of internal execution order). -/
theorem c4_range_order_preservation (s t : Optim.CalcState)
    (hs : Optim.WFState s) (ht : Optim.WFState t) (start count : Int)
    (i : Nat) (hi : (i : Int) < count) :
    ((Optim.calculate_date_range s start count).1)[i]? =
      some ((Optim.calculate_single_date t (start + (i : Int))).1) := by
  rw [single_date_val t _ ht]
  unfold Optim.calculate_date_range
  rw [range_go_spec start _ [] s hs]
  have hi' : i < count.toNat := by omega
  rw [List.nil_append, List.getElem?_map, List.getElem?_map,
    List.getElem?_range hi']
  rfl

/-- C4 witness: instantiation at the empty state, start 0, count 1,
index 0. -/
theorem c4_range_order_preservation_witness :
    Optim.WFState ⟨⟨[], 100⟩, ⟨0, 0, 0⟩⟩ ∧ ((0 : Nat) : Int) < 1 ∧
    ((Optim.calculate_date_range ⟨⟨[], 100⟩, ⟨0, 0, 0⟩⟩ 0 1).1)[0]? =
      some ((Optim.calculate_single_date ⟨⟨[], 100⟩, ⟨0, 0, 0⟩⟩
        (0 + ((0 : Nat) : Int))).1) := by
  have hwf : Optim.WFState ⟨⟨[], 100⟩, ⟨0, 0, 0⟩⟩ := by
    intro p hp
    simp at hp
  exact ⟨hwf, by norm_num,
    c4_range_order_preservation _ _ hwf hwf 0 1 0 (by norm_num)⟩

/-- A cache miss leaves the cache untouched. -/
theorem get_miss {β : Type} (c : Optim.LruCache β) (k : Int)
    (h : c.entries.find? (fun p => p.1 == k) = none) :
    c.get k = (none, c) := by
  unfold Optim.LruCache.get
  rw [h]

/-- After `put k v` the key `k` is always present with value `v` (it is the
most-recently-used entry). -/
theorem put_get_self {β : Type} (c : Optim.LruCache β) (k : Int) (v : β) :
    ∃ c', (c.put k v).get k = (some v, c') := by
  have hfind : ∀ t : List (Int × β),
      List.find? (fun p => p.1 == k) ((k, v) :: t) = some (k, v) := by
    intro t
    rw [List.find?_cons_of_pos]
    simp
  unfold Optim.LruCache.put Optim.LruCache.get
  split_ifs <;> rw [hfind] <;> exact ⟨_, rfl⟩

/-- C5: cache idempotence with counter effects — starting from any state
whose cache does not contain `d`, two successive `calculate_single_date(d)`
calls return identical snapshots; the first increments only `cache_misses`
and the second increments only `cache_hits`. -/
theorem c5_cache_idempotence (s : Optim.CalcState) (d : Int)
    (hmiss : s.cache.entries.find? (fun p => p.1 == d) = none) :
    (Optim.calculate_single_date s d).1 =
      (Optim.calculate_single_date (Optim.calculate_single_date s d).2 d).1 ∧
    (Optim.calculate_single_date s d).2.metrics.cache_misses =
      s.metrics.cache_misses + 1 ∧
    (Optim.calculate_single_date s d).2.metrics.cache_hits =
      s.metrics.cache_hits ∧
    (Optim.calculate_single_date (Optim.calculate_single_date s d).2 d).2.metrics.cache_hits =
      (Optim.calculate_single_date s d).2.metrics.cache_hits + 1 ∧
    (Optim.calculate_single_date (Optim.calculate_single_date s d).2 d).2.metrics.cache_misses =
      (Optim.calculate_single_date s d).2.metrics.cache_misses := by
  have hget : s.cache.get d = (none, s.cache) := get_miss s.cache d hmiss
  obtain ⟨c2, hget2⟩ :=
    put_get_self s.cache d (Optim.computeSnapshot d)
  have h1 : Optim.calculate_single_date s d =
      (Optim.computeSnapshot d,
       { cache := s.cache.put d (Optim.computeSnapshot d),
         metrics := s.metrics.record_cache_miss }) := by
    unfold Optim.calculate_single_date
    rw [hget]
  have h2 : Optim.calculate_single_date (Optim.calculate_single_date s d).2 d =
      (Optim.computeSnapshot d,
       { cache := c2,
         metrics := s.metrics.record_cache_miss.record_cache_hit }) := by
    rw [h1]
    unfold Optim.calculate_single_date
    simp only
    rw [hget2]
  rw [h2, h1]
  simp [Optim.Metrics.record_cache_miss, Optim.Metrics.record_cache_hit]

/-- C5 witness: instantiation at the empty state and day offset 0. -/
theorem c5_cache_idempotence_witness :
    (Optim.LruCache.entries
        (Optim.CalcState.cache ⟨⟨[], 100⟩, ⟨0, 0, 0⟩⟩)).find?
        (fun p => p.1 == (0 : Int)) = none ∧
    ((Optim.calculate_single_date ⟨⟨[], 100⟩, ⟨0, 0, 0⟩⟩ 0).1 =
      (Optim.calculate_single_date
        (Optim.calculate_single_date ⟨⟨[], 100⟩, ⟨0, 0, 0⟩⟩ 0).2 0).1 ∧
    (Optim.calculate_single_date ⟨⟨[], 100⟩, ⟨0, 0, 0⟩⟩ 0).2.metrics.cache_misses =
      (Optim.Metrics.cache_misses ⟨0, 0, 0⟩) + 1 ∧
    (Optim.calculate_single_date ⟨⟨[], 100⟩, ⟨0, 0, 0⟩⟩ 0).2.metrics.cache_hits =
      Optim.Metrics.cache_hits ⟨0, 0, 0⟩ ∧
    (Optim.calculate_single_date
        (Optim.calculate_single_date ⟨⟨[], 100⟩, ⟨0, 0, 0⟩⟩ 0).2 0).2.metrics.cache_hits =
      (Optim.calculate_single_date ⟨⟨[], 100⟩, ⟨0, 0, 0⟩⟩ 0).2.metrics.cache_hits + 1 ∧
    (Optim.calculate_single_date
        (Optim.calculate_single_date ⟨⟨[], 100⟩, ⟨0, 0, 0⟩⟩ 0).2 0).2.metrics.cache_misses =
      (Optim.calculate_single_date ⟨⟨[], 100⟩, ⟨0, 0, 0⟩⟩ 0).2.metrics.cache_misses) :=
  ⟨rfl, c5_cache_idempotence ⟨⟨[], 100⟩, ⟨0, 0, 0⟩⟩ 0 rfl⟩

/-- In a list of entries of the form `(x, v x)`, lookup of a present key
finds exactly its pair. -/
theorem find?_map_pair {β : Type} (v : Int → β) (k : Int) :
    ∀ l : List Int, k ∈ l →
      (l.map (fun x => (x, v x))).find? (fun p => p.1 == k) = some (k, v k) := by
  intro l
  induction l with
  | nil => intro h; cases h
  | cons x l ih =>
      intro hk
      by_cases hx : x = k
      · subst hx
        simp only [List.map_cons]
        rw [List.find?_cons_of_pos _ (by simp)]
      · simp only [List.map_cons]
        rw [List.find?_cons_of_neg _ (by simp [hx])]
        exact ih (by
          rcases List.mem_cons.mp hk with rfl | h
          · exact absurd rfl hx
          · exact h)

/-- In a list of entries of the form `(x, v x)` over keys not containing
`k`, lookup of `k` fails. -/
theorem find?_map_pair_none {β : Type} (v : Int → β) (k : Int)
    (l : List Int) (hk : k ∉ l) :
    (l.map (fun x => (x, v x))).find? (fun p => p.1 == k) = none := by
  rw [List.find?_eq_none]
  intro p hp
  obtain ⟨x, hx, rfl⟩ := List.mem_map.mp hp
  simp only [beq_iff_eq]
  rintro rfl
  exact hk hx

/-- Folding `put` over fresh distinct keys keeps exactly the most recent
`N` of the inserted keys, most-recently-used first. -/
theorem putAll_entries {β : Type} (v : Int → β) (N : Nat) (hN : 1 ≤ N) :
    ∀ (ks done : List Int), (done ++ ks).Nodup →
      (ks.foldl (fun (c : Optim.LruCache β) k => c.put k (v k))
          ⟨(done.reverse.take N).map (fun k => (k, v k)), N⟩).entries
        = ((done ++ ks).reverse.take N).map (fun k => (k, v k)) := by
  intro ks
  induction ks with
  | nil =>
      intro done _
      simp [List.foldl]
  | cons k ks ih =>
      intro done hnd
      have hknotdone : k ∉ done := by
        rcases List.nodup_append.mp hnd with ⟨_, _, hdisj⟩
        intro hmem
        exact hdisj hmem (List.mem_cons_self k ks)
      have hstep :
          (Optim.LruCache.put
              ⟨(done.reverse.take N).map (fun k => (k, v k)), N⟩ k (v k)) =
            (⟨((done ++ [k]).reverse.take N).map (fun k => (k, v k)), N⟩ :
              Optim.LruCache β) := by
        have hfind :
            ((done.reverse.take N).map (fun k => (k, v k))).find?
              (fun p => p.1 == k) = none := by
          apply find?_map_pair_none
          intro hmem
          exact hknotdone (List.mem_reverse.mp
            (List.take_subset _ _ hmem))
        unfold Optim.LruCache.put
        simp only [hfind, Option.isSome_none, Bool.false_eq_true, if_false]
        have hrev : (done ++ [k]).reverse = k :: done.reverse := by
          simp
        by_cases hlen : N ≤ done.length
        · have hlenE :
              ((done.reverse.take N).map
                (fun k => (k, v k))).length = N := by
            simp [List.length_take]
            omega
          rw [if_pos (by rw [hlenE])]
          have hdrop :
              ((done.reverse.take N).map
                  (fun k => (k, v k))).dropLast =
                ((done.reverse.take (N - 1)).map
                  (fun k => (k, v k))) := by
            rw [List.dropLast_eq_take, hlenE, ← List.map_take,
              List.take_take]
            congr 2
            omega
          rw [hdrop, hrev]
          obtain ⟨M, rfl⟩ : ∃ M, N = M + 1 := ⟨N - 1, by omega⟩
          simp [List.take_succ_cons]
        · have hlenE :
              ((done.reverse.take N).map
                (fun k => (k, v k))).length = done.length := by
            simp [List.length_take]
            omega
          rw [if_neg (by rw [hlenE]; omega)]
          have htd : done.reverse.take N = done.reverse := by
            apply List.take_of_length_le
            simp
            omega
          have htd' : done.reverse.take (N - 1) = done.reverse := by
            apply List.take_of_length_le
            simp
            omega
          rw [htd, hrev]
          obtain ⟨M, rfl⟩ : ∃ M, N = M + 1 := ⟨N - 1, by omega⟩
          rw [List.take_succ_cons]
          have : done.reverse.take M = done.reverse := by
            apply List.take_of_length_le
            simp
            omega
          rw [this]
          simp
      rw [List.foldl_cons, hstep]
      have hnd' : ((done ++ [k]) ++ ks).Nodup := by
        rw [List.append_assoc]
        simpa using hnd
      have := ih (done ++ [k]) hnd'
      rw [this]
      congr 2
      rw [List.append_assoc]
      rfl

/-- C6: LRU eviction correctness — putting `N+1` distinct day-offset keys
in order into a fresh capacity-`N` cache evicts exactly the first-inserted
key: a get of the first key returns nothing while a get of each of the `N`
most recently inserted keys returns its stored snapshot. -/
theorem c6_lru_eviction {β : Type} (N : Nat) (hN : 1 ≤ N) (k0 : Int)
    (rest : List Int) (v : Int → β) (hlen : rest.length = N)
    (hnodup : (k0 :: rest).Nodup) :
    ((((k0 :: rest).foldl (fun c k => c.put k (v k))
        (Optim.LruCache.new β N)).get k0).1 = none) ∧
    (∀ k ∈ rest,
      ((((k0 :: rest).foldl (fun c k => c.put k (v k))
          (Optim.LruCache.new β N)).get k).1 = some (v k))) := by
  have hentries :
      ((k0 :: rest).foldl (fun c k => c.put k (v k))
          (Optim.LruCache.new β N)).entries
        = rest.reverse.map (fun k => (k, v k)) := by
    have h0 := putAll_entries v N hN (k0 :: rest) [] (by simpa using hnodup)
    have hinit : (Optim.LruCache.new β N) =
        (⟨(([] : List Int).reverse.take N).map (fun k => (k, v k)), N⟩ :
          Optim.LruCache β) := by
      simp [Optim.LruCache.new]
    rw [hinit, h0]
    have : ([] ++ k0 :: rest : List Int) = k0 :: rest := by simp
    rw [this, List.reverse_cons,
      List.take_left' (by simp [hlen])]
  have hk0 : k0 ∉ rest := (List.nodup_cons.mp hnodup).1
  constructor
  · unfold Optim.LruCache.get
    rw [hentries, find?_map_pair_none v k0 rest.reverse
      (by simpa using hk0)]
  · intro k hk
    unfold Optim.LruCache.get
    rw [hentries, find?_map_pair v k rest.reverse
      (List.mem_reverse.mpr hk)]

/-- C6 witness: capacity 2, keys 0,1,2 — key 0 is evicted, keys 1 and 2
remain. -/
theorem c6_lru_eviction_witness :
    (1 ≤ 2 ∧ ([1, 2] : List Int).length = 2 ∧
      ((0 : Int) :: [1, 2]).Nodup) ∧
    (((((0 : Int) :: [1, 2]).foldl
        (fun c k => c.put k (k + 10))
        (Optim.LruCache.new Int 2)).get 0).1 = none) ∧
    (∀ k ∈ ([1, 2] : List Int),
      (((((0 : Int) :: [1, 2]).foldl
          (fun c k => c.put k (k + 10))
          (Optim.LruCache.new Int 2)).get k).1 = some (k + 10))) := by
  refine ⟨⟨by norm_num, by simp, by decide⟩, ?_⟩
  exact c6_lru_eviction 2 (by norm_num) 0 [1, 2] (fun k => k + 10)
    (by simp) (by decide)

/-- C8 (counterexample): a failure for one glyph does abort the batch — with
glyph "a.png" missing, `preload_glyphs` returns that error and the later
glyph "b.png" is never attempted (the final cache is empty, with no
per-item report). -/
theorem c8_counterexample :
    (Optim.preload_glyphs c8_provider c8_config ⟨[], []⟩).1 =
      Except.error (Optim.GlyphError.FileError "missing") ∧
    (Optim.preload_glyphs c8_provider c8_config ⟨[], []⟩).2 =
      (⟨[], []⟩ : Optim.TextureCache) :=
  ⟨rfl, rfl⟩

/-- C8 (amended): `preload_glyphs` is fail-fast per item — as soon as one
glyph fails to load, decode or validate, `try_for_each` short-circuits:
the whole preload returns that single error, the cache is left as it was
at that point, and the remaining paths are never attempted (no per-item
report is produced). -/
theorem c8_preload_fail_fast (prov : Optim.AssetProvider)
    (c : Optim.TextureCache) (p : String) (ps : List String)
    (e : Optim.GlyphError) (h : Optim.process_glyph prov c p = Except.error e) :
    Optim.preload_go prov (p :: ps) c = (Except.error e, c) := by
  unfold Optim.preload_go
  rw [h]

/-- C8 witness: instantiation at the missing-file provider. -/
theorem c8_preload_fail_fast_witness :
    Optim.process_glyph c8_provider ⟨[], []⟩ "a.png" =
      Except.error (Optim.GlyphError.FileError "missing") ∧
    Optim.preload_go c8_provider ["a.png", "b.png"] ⟨[], []⟩ =
      (Except.error (Optim.GlyphError.FileError "missing"),
       (⟨[], []⟩ : Optim.TextureCache)) :=
  ⟨rfl, c8_preload_fail_fast c8_provider ⟨[], []⟩ "a.png" ["b.png"]
    (Optim.GlyphError.FileError "missing") rfl⟩

/-- C9 (counterexample): v0.4.0's `get_texture` performs no dimension
validation — on a cache miss a 64×64 image is decoded, returned as a
handle and stored in the cache (no `DimensionMismatch`-style failure). -/
theorem c9_counterexample :
    (Optim040.get_texture c9_provider040 c9_config040 ⟨[], []⟩
        Optim040.GlyphType.Tzolkin "Imix").1 =
      some ("Imix", ⟨64, 64, []⟩) ∧
    Optim.lookupAssoc
        (Optim040.get_texture c9_provider040 c9_config040 ⟨[], []⟩
          Optim040.GlyphType.Tzolkin "Imix").2.tzolkin_textures "imix.png" =
      some ("Imix", ⟨64, 64, []⟩) :=
  ⟨rfl, rfl⟩

/-- C9 (amended): the 128×128 validation lives in v0.1.9's
`preload_glyphs`: whenever a glyph's bytes decode to an image that is not
exactly 128×128, that item fails with `InvalidDimensions` and no handle is
stored for it (the cache is unchanged); v0.4.0's `get_texture`, by
contrast, performs no dimension validation. -/
theorem c9_dimension_validation (prov : Optim.AssetProvider)
    (c : Optim.TextureCache) (path : String) (ps : List String)
    (bytes : List Nat) (img : Optim.Image)
    (hread : prov.read_bytes path = Except.ok bytes)
    (hdecode : prov.decode bytes = Except.ok img)
    (hdim : img.width ≠ 128 ∨ img.height ≠ 128) :
    Optim.process_glyph prov c path =
      Except.error (Optim.GlyphError.InvalidDimensions img.width img.height) ∧
    Optim.preload_go prov (path :: ps) c =
      (Except.error (Optim.GlyphError.InvalidDimensions img.width img.height),
       c) := by
  have h1 : Optim.process_glyph prov c path =
      Except.error (Optim.GlyphError.InvalidDimensions img.width img.height) := by
    unfold Optim.process_glyph
    simp only [hread, hdecode]
    rw [if_pos hdim]
  refine ⟨h1, ?_⟩
  unfold Optim.preload_go
  rw [h1]

/-- C9 witness: instantiation at the 64×64 provider. -/
theorem c9_dimension_validation_witness :
    c9_provider019.read_bytes "x.png" = Except.ok [0] ∧
    c9_provider019.decode [0] = Except.ok ⟨64, 64, []⟩ ∧
    ((64 : Nat) ≠ 128 ∨ (64 : Nat) ≠ 128) ∧
    (Optim.process_glyph c9_provider019 ⟨[], []⟩ "x.png" =
      Except.error (Optim.GlyphError.InvalidDimensions 64 64) ∧
    Optim.preload_go c9_provider019 ["x.png"] ⟨[], []⟩ =
      (Except.error (Optim.GlyphError.InvalidDimensions 64 64),
       (⟨[], []⟩ : Optim.TextureCache))) :=
  ⟨rfl, rfl, Or.inl (by decide),
    c9_dimension_validation c9_provider019 ⟨[], []⟩ "x.png" []
      [0] ⟨64, 64, []⟩ rfl rfl (Or.inl (by decide))⟩

/-- C10: implicit periodicity — for every day offset `d`,
`tzolkin_date(d + 260) = tzolkin_date(d)` and
`haab_date(d + 365) = haab_date(d)`. -/
theorem c10_cycle_periodicity (d : Int) :
    EnRs.tzolkin_date (d + 260) = EnRs.tzolkin_date d ∧
    EnRs.haab_date (d + 365) = EnRs.haab_date d := by
  constructor
  · rw [tzolkin_canon, tzolkin_canon]
    have h1 : (d + 260 + 3) % 13 = (d + 3) % 13 := by omega
    have h2 : (d + 260 + 19) % 20 = (d + 19) % 20 := by omega
    rw [h1, h2]
  · have h3 : EnRs.haab_day_num (d + 365) = EnRs.haab_day_num d := by
      rw [haab_day_canon, haab_day_canon]
      omega
    simp only [EnRs.haab_date, EnRs.haab_month_index]
    rw [h3]

end MayanSpec
